import Mathlib

/-!
Verification of the SqlMapPRO performance primitives: the keyed HTTP
connection pool (lib/request/connectionpool.py), the supervised worker
pool (lib/core/threadpool.py), and the optimization facade with its
FIFO query cache (lib/core/optimization.py).

The Python code is shallowly embedded as pure Lean functions.  Mutable
registries become explicit state records threaded through each
operation; connections are identified by natural-number ids; the
liveness probe (select-based socket check) and connection creation
(network I/O) are environment effects and therefore appear as explicit
parameters (`probe`, `createOk`).  Closing a connection is recorded in
a `closedConns` journal so that close side effects are observable.
-/

/-- First-match lookup in an association list; models Python dict
indexing (the code never creates duplicate keys). -/
def alget {α β : Type} [DecidableEq α] (k : α) : List (α × β) → Option β
  | [] => Option.none
  | (k₁, v) :: t => if k₁ = k then some v else alget k t

/-- First-match update in an association list; models Python dict
assignment (in-place update of an existing key, append otherwise). -/
def alset {α β : Type} [DecidableEq α] (k : α) (v : β) : List (α × β) → List (α × β)
  | [] => [(k, v)]
  | (k₁, v₁) :: t => if k₁ = k then (k, v) :: t else (k₁, v₁) :: alset k v t

/-- Endpoint key `(host, port, use_ssl)` identifying one pool. -/
def EKey : Type := String × Nat × Bool

instance : DecidableEq EKey := by
  unfold EKey
  infer_instance

/-- Per-key usage counters `connection_usage_stats[key]`. -/
structure Stats where
  created : Nat
  reused : Nat
  failed : Nat
deriving DecidableEq

/-- State of the `ConnectionPoolManager` singleton.  `pools` maps each
endpoint key to its idle stack (Python list, pops and pushes at the
end), `lockKeys` is the key set of `pool_locks`, `maxConn` is the
value `kb.get("max_connections_per_host", 10)`, `nextId` generates
fresh connection ids for `_create_connection`, and `closedConns`
journals every `connection.close()` call. -/
structure CPState where
  pools : List (EKey × List Nat)
  stats : List (EKey × Stats)
  lockKeys : List EKey
  maxConn : Nat
  nextId : Nat
  closedConns : List Nat
deriving DecidableEq

/-- The `while self.pools[key]` pop-and-probe loop of `get_connection`,
expressed over the reversed idle list (so the head is the most
recently released connection, which `list.pop()` removes first).
Returns the first connection passing the probe, the remainder of the
reversed stack below it, and the number of failed probes. -/
def scanIdle (probe : Nat → Bool) : List Nat → Option Nat × List Nat × Nat
  | [] => (Option.none, [], 0)
  | c :: cs =>
    if probe c then (some c, cs, 0)
    else
      let r := scanIdle probe cs
      (r.1, r.2.1, r.2.2 + 1)

/-- `ConnectionPoolManager.get_connection(host, port, use_ssl)`.
`probe` is the environment for `_is_connection_valid`; `createOk`
tells whether `_create_connection` succeeds (it returns `None` on any
creation exception).  Note two literal behaviours of the source: a
popped connection failing the probe is dropped without a `close()`
call, and a failed creation falls through to the final `return None`,
indistinguishable from the capacity-exhaustion signal. -/
def get_connection (probe : Nat → Bool) (createOk : Bool) (host : String) (port : Nat)
    (ssl : Bool) (st : CPState) : Option Nat × CPState :=
  let key : EKey := (host, port, ssl)
  let st1 :=
    if (alget key st.pools).isSome then st
    else
      { st with pools := alset key ([] : List Nat) st.pools,
                lockKeys := st.lockKeys ++ [key],
                stats := alset key ⟨0, 0, 0⟩ st.stats }
  let idle := (alget key st1.pools).getD []
  let s0 := (alget key st1.stats).getD ⟨0, 0, 0⟩
  let r := scanIdle probe idle.reverse
  let idle1 := r.2.1.reverse
  let s1 : Stats := { s0 with failed := s0.failed + r.2.2 }
  match r.1 with
  | some c =>
    (some c, { st1 with pools := alset key idle1 st1.pools,
                        stats := alset key { s1 with reused := s1.reused + 1 } st1.stats })
  | Option.none =>
    if s1.created + idle1.length < st1.maxConn then
      if createOk then
        (some st1.nextId,
         { st1 with pools := alset key idle1 st1.pools,
                    stats := alset key { s1 with created := s1.created + 1 } st1.stats,
                    nextId := st1.nextId + 1 })
      else
        (Option.none, { st1 with pools := alset key idle1 st1.pools,
                                 stats := alset key s1 st1.stats })
    else
      (Option.none, { st1 with pools := alset key idle1 st1.pools,
                               stats := alset key s1 st1.stats })

/-- `ConnectionPoolManager.release_connection(connection, host, port,
use_ssl, reuse)`.  A connection object is always truthy, so the
`if not connection or not reuse` guard reduces to the reuse flag.
No usage counter is ever touched by the source on release. -/
def release_connection (probe : Nat → Bool) (conn : Nat) (host : String) (port : Nat)
    (ssl : Bool) (reuse : Bool) (st : CPState) : CPState :=
  if reuse = false then { st with closedConns := st.closedConns ++ [conn] }
  else
    let key : EKey := (host, port, ssl)
    match alget key st.pools with
    | Option.none => st
    | some idle =>
      if probe conn then
        if idle.length < st.maxConn then
          { st with pools := alset key (idle ++ [conn]) st.pools }
        else
          { st with closedConns := st.closedConns ++ [conn] }
      else
        { st with closedConns := st.closedConns ++ [conn] }

/-- `_close_all_connections(key)`: when the key has a lock and a pool,
close every idle connection there and empty that idle list.  Counters
are not touched. -/
def closeAllKey (k : EKey) (st : CPState) : CPState :=
  if k ∈ st.lockKeys then
    match alget k st.pools with
    | some idle =>
      { st with closedConns := st.closedConns ++ idle,
                pools := alset k ([] : List Nat) st.pools }
    | Option.none => st
  else st

/-- The per-field filter match of `clear_pool`: an unset field matches
anything, a set field requires exact equality. -/
def matchKey (h : Option String) (p : Option Nat) (s : Option Bool) (k : EKey) : Bool :=
  (match h with | Option.none => true | some x => decide (k.1 = x)) &&
  (match p with | Option.none => true | some x => decide (k.2.1 = x)) &&
  (match s with | Option.none => true | some x => decide (k.2.2 = x))

/-- `ConnectionPoolManager.clear_pool(host, port, use_ssl)`: with no
filter, close every pool; otherwise close exactly the pools whose key
matches every specified field.  Iteration is over a snapshot of the
key list, as in the source. -/
def clear_pool (h : Option String) (p : Option Nat) (s : Option Bool) (st : CPState) : CPState :=
  if h = Option.none ∧ p = Option.none ∧ s = Option.none then
    (st.pools.map Prod.fst).foldl (fun acc k => closeAllKey k acc) st
  else
    (st.pools.map Prod.fst).foldl
      (fun acc k => if matchKey h p s k then closeAllKey k acc else acc) st

/-!  Optimization facade (lib/core/optimization.py). -/

/-- Dynamically typed Python values appearing in the flag table and
the configuration map. -/
inductive PyVal where
  | int : Int → PyVal
  | bool : Bool → PyVal
  | str : String → PyVal
  | none : PyVal
deriving DecidableEq

/-- Python `isinstance(v, int)`.  Booleans are an int subclass in
Python, so they pass this check. -/
def isInstInt : PyVal → Bool
  | .int _ => true
  | .bool _ => true
  | _ => false

/-- Python `isinstance(v, bool)`. -/
def isInstBool : PyVal → Bool
  | .bool _ => true
  | _ => false

/-- Python truthiness of a value. -/
def truthy : PyVal → Bool
  | .int n => decide (n ≠ 0)
  | .bool b => b
  | .str s => decide (s ≠ "")
  | .none => false

/-- State of the optimization layer: the `enabled_optimizations` flag
table, the `optimization_config` map, and the `kb` attributes the
facade writes (`kb.max_connections_per_host`, the query-cache
initialization, `kb.enable_http2`). -/
structure OptState where
  flags : List (String × PyVal)
  config : List (String × PyVal)
  kbMaxConn : Option PyVal
  kbQueryCacheInit : Bool
  kbHttp2 : Bool
deriving DecidableEq

/-- Module-level initial contents of `enabled_optimizations` and
`optimization_config`. -/
def initOptState : OptState :=
  { flags := [("http_connection_pool", .bool false), ("thread_pool", .bool false),
              ("query_cache", .bool false), ("memory_optimization", .bool false),
              ("network_optimization", .bool false), ("code_optimization", .bool false)],
    config := [("max_connections_per_host", .int 10), ("thread_pool_size", .none),
               ("query_cache_size", .int 100), ("enable_http2", .bool true),
               ("enable_compression", .bool true), ("enable_dns_cache", .bool true)],
    kbMaxConn := Option.none, kbQueryCacheInit := false, kbHttp2 := false }

/-- `OptimizationManager.enable_optimization(name, enabled)`.  Unknown
names are rejected with `False`; for a known name the flag is stored
unconditionally (the source performs no type check on `enabled`).  The
`thread_pool` import of lib.core.threadpool succeeds since that module
is part of the repository; the `enable_http2` branch is unreachable
because that string is a config key, not a flag name. -/
def enable_optimization (name : String) (enabled : PyVal) (st : OptState) : Bool × OptState :=
  if (alget name st.flags).isNone then (false, st)
  else
    let st2 := { st with flags := alset name enabled st.flags }
    if name = "http_connection_pool" ∧ truthy enabled = true then
      (true, { st2 with kbMaxConn := alget "max_connections_per_host" st2.config })
    else if name = "thread_pool" ∧ truthy enabled = true then
      (true, st2)
    else if name = "query_cache" ∧ truthy enabled = true then
      (true, { st2 with kbQueryCacheInit := true })
    else if name = "enable_http2" ∧ truthy enabled = true then
      (true, { st2 with kbHttp2 := true })
    else (true, st2)

/-- `OptimizationManager.set_optimization_config(key, value)`: unknown
keys and type-check failures are rejected with `False` before any
write; an accepted call updates exactly the named key and, for the
capacity key while the pool feature is on, mirrors the value into
`kb.max_connections_per_host`. -/
def set_optimization_config (key : String) (value : PyVal) (st : OptState) : Bool × OptState :=
  if (alget key st.config).isNone then (false, st)
  else if key = "max_connections_per_host" ∧ isInstInt value = false then (false, st)
  else if key = "thread_pool_size" ∧ value ≠ PyVal.none ∧ isInstInt value = false then (false, st)
  else if key = "query_cache_size" ∧ isInstInt value = false then (false, st)
  else if (key = "enable_http2" ∨ key = "enable_compression" ∨ key = "enable_dns_cache")
          ∧ isInstBool value = false then (false, st)
  else
    let st2 := { st with config := alset key value st.config }
    if key = "max_connections_per_host"
       ∧ truthy ((alget "http_connection_pool" st2.flags).getD PyVal.none) = true then
      (true, { st2 with kbMaxConn := some value })
    else (true, st2)

/-- The per-key type test of `set_optimization_config`, collected as a
single predicate (true when the value passes for that key). -/
def configTypeOk (key : String) (v : PyVal) : Bool :=
  if key = "max_connections_per_host" then isInstInt v
  else if key = "thread_pool_size" then (if v = PyVal.none then true else isInstInt v)
  else if key = "query_cache_size" then isInstInt v
  else if key = "enable_http2" ∨ key = "enable_compression" ∨ key = "enable_dns_cache" then
    isInstBool v
  else true

/-!  Query cache (the cached_query wrapper of lib/core/optimization.py). -/

/-- State read and written by one call through the `cached_query`
wrapper: the `query_cache` feature flag, the `hasattr(kb, "query_cache")`
test, the insertion-ordered cache dict (keys abstract the
`(name, args, kwargs)` string triple), the hit and miss counters, the
`query_cache_size` configuration value, and a journal counter of how
many times the wrapped function itself was invoked. -/
structure CacheState where
  enabled : Bool
  hasAttr : Bool
  cache : List (Nat × Nat)
  hits : Nat
  misses : Nat
  size : Nat
  evalCount : Nat
deriving DecidableEq

/-- One call through the `cached_query` wrapper with cache key `key`
where the wrapped function would compute `v`.  Returns `Option.none`
for the `StopIteration` escape of `next(iter({}.keys()))` when the
eviction branch runs on an empty dict (only possible with a
non-positive configured size). -/
def cachedCall (st : CacheState) (key : Nat) (v : Nat) : Option (Nat × CacheState) :=
  if st.enabled = false ∨ st.hasAttr = false then
    some (v, { st with evalCount := st.evalCount + 1 })
  else
    match alget key st.cache with
    | some w => some (w, { st with hits := st.hits + 1 })
    | Option.none =>
      let st1 := { st with evalCount := st.evalCount + 1 }
      if st1.size ≤ st1.cache.length then
        match st1.cache with
        | [] => Option.none
        | _ :: rest =>
          some (v, { st1 with cache := rest ++ [(key, v)], misses := st1.misses + 1 })
      else
        some (v, { st1 with cache := st1.cache ++ [(key, v)], misses := st1.misses + 1 })

/-- A sequence of calls through the wrapper, each a pair of cache key
and the value the wrapped function would compute. -/
def cachedRun (st : CacheState) : List (Nat × Nat) → Option CacheState
  | [] => some st
  | (k, v) :: rest =>
    match cachedCall st k v with
    | Option.none => Option.none
    | some r => cachedRun r.2 rest

/-!  Supervised worker pool (lib/core/threadpool.py).

The batch is embedded as a deterministic sequential model: unit `i` of
an `n`-unit batch produces `work i n`, which is either `Option.none`
(normal return) or the kind of exception it raises.  Thread
interleaving is abstracted to worker-index order; the properties
proved below (final flag values, cleanup counts, the propagated
exception, log membership) do not depend on completion order. -/

/-- Exception taxonomy distinguished by the handlers of
runThreadsWithPool and of the worker wrapper. -/
inductive ExKind where
  | keyboardInterrupt
  | userQuit
  | skipTarget
  | connection
  | value
  | otherBase
  | generic
deriving DecidableEq

/-- Observable logger events emitted by the thread pool machinery. -/
inductive LogEv where
  | startInfo (n : Nat)
  | workerError (i : Nat) (k : ExKind)
  | collectError (k : ExKind)
  | outerThreadError (k : ExKind)
  | cleanupError (k : ExKind)
deriving DecidableEq

/-- The `kb` attributes and observable effects touched by
runThreadsWithPool: the two flags, the Ctrl-C marker, the logger
journal, and a counter of cleanupFunction invocations (the observable
cleanup side effect). -/
structure KBState where
  multiThreadMode : Bool
  threadException : Bool
  multipleCtrlC : Bool
  log : List LogEv
  cleanupRuns : Nat
deriving DecidableEq

/-- Append events to the logger journal. -/
def addLog (kb : KBState) (l : List LogEv) : KBState := { kb with log := kb.log ++ l }

/-- Effective worker count: a non-positive request becomes 1, then the
result is clamped by `min(multiprocessing.cpu_count() * 4, 32)`. -/
def effThreads (numThreads : Int) (cpuCount : Nat) : Nat :=
  min (if numThreads ≤ 0 then 1 else numThreads.toNat) (min (cpuCount * 4) 32)

/-- The outcomes of the submitted batch, index-aligned with the
worker id passed as first argument to `threadFunction`. -/
def batchOutcomes (n : Nat) (work : Nat → Nat → Option ExKind) : List (Option ExKind) :=
  (List.range n).map fun i => work i n

/-- The first failure in worker-index order, as selected by the
`for future in futures` loop under `forwardException`. -/
def firstFailure (outs : List (Option ExKind)) : Option ExKind :=
  (outs.filterMap id).head?

/-- Error log lines produced inside `_wrap_function`: every failure is
logged with its worker identity except KeyboardInterrupt and the two
intentional-abort exceptions, which are re-raised silently. -/
def wrapLogs (n : Nat) (work : Nat → Nat → Option ExKind) : List LogEv :=
  (List.range n).filterMap fun i =>
    match work i n with
    | some k =>
      if k = ExKind.keyboardInterrupt ∨ k = ExKind.userQuit ∨ k = ExKind.skipTarget then
        Option.none
      else some (LogEv.workerError i k)
    | Option.none => Option.none

/-- The `as_completed` collection loop, processed in index order.  A
KeyboardInterrupt result escapes the per-future `except Exception`
handler and aborts the loop; in the multi-thread case the
`except KeyboardInterrupt` body then evaluates the deleted name `ex`,
raising a NameError (a generic exception) that escapes the inner try;
with one worker the guarded body is skipped and the interrupt is
swallowed.  Other failures are logged (except the intentional aborts)
and collection continues.  Returns the produced log events and the
exception escaping the collection block, if any. -/
def collectLogs (multi : Bool) : List (Option ExKind) → List LogEv × Option ExKind
  | [] => ([], Option.none)
  | Option.none :: rest => collectLogs multi rest
  | some k :: rest =>
    if k = ExKind.keyboardInterrupt then
      ([], if multi then some ExKind.generic else Option.none)
    else
      let r := collectLogs multi rest
      if k = ExKind.userQuit ∨ k = ExKind.skipTarget then r
      else (LogEv.collectError k :: r.1, r.2)

/-- The outer exception handlers of runThreadsWithPool, applied to an
exception escaping its try block.  Connection and value errors are
logged and swallowed with `kb.threadException` set; KeyboardInterrupt
sets `kb.multipleCtrlC` and is re-raised; every other exception is
swallowed, and logged with `kb.threadException` set unless
`kb.multipleCtrlC` already holds.  The second component is the
exception propagated onward to the caller. -/
def handleOuter (k : ExKind) (kb : KBState) : KBState × Option ExKind :=
  if k = ExKind.connection ∨ k = ExKind.value then
    ({ kb with threadException := true, log := kb.log ++ [LogEv.outerThreadError k] },
     Option.none)
  else if k = ExKind.keyboardInterrupt then
    ({ kb with multipleCtrlC := true }, some ExKind.keyboardInterrupt)
  else if kb.multipleCtrlC then (kb, Option.none)
  else
    ({ kb with threadException := true, log := kb.log ++ [LogEv.outerThreadError k] },
     Option.none)

/-- The body of runThreadsWithPool up to (not including) the `finally`
block: clamping, the interactive thread-choice prompt (whose
`raw_input` name does not exist under Python 3 and raises a NameError
before any unit is submitted), submission, collection, and the
`forwardException` re-raise of the first recorded failure, fed through
the outer handlers.  Returns the kb state, the exception still
propagating, the number of submitted units, and their outcomes. -/
def runCore (numThreads : Int) (cpuCount : Nat) (work : Nat → Nat → Option ExKind)
    (forwardException threadChoice startThreadMsg : Bool) (kb0 : KBState) :
    KBState × Option ExKind × Nat × List (Option ExKind) :=
  let kb := { kb0 with multiThreadMode := true }
  let n := effThreads numThreads cpuCount
  if threadChoice = true ∧ 1 < n then
    let r := handleOuter ExKind.generic kb
    (r.1, r.2, 0, [])
  else
    let kb1 := if startThreadMsg = true ∧ 1 < n then addLog kb [LogEv.startInfo n] else kb
    let outs := batchOutcomes n work
    let kb2 := addLog kb1 (wrapLogs n work)
    let cl := collectLogs (decide (1 < n)) outs
    let kb3 := addLog kb2 cl.1
    match cl.2 with
    | some k =>
      let r := handleOuter k kb3
      (r.1, r.2, n, outs)
    | Option.none =>
      match (if forwardException = true then firstFailure outs else Option.none) with
      | some k =>
        let r := handleOuter k kb3
        (r.1, r.2, n, outs)
      | Option.none => (kb3, Option.none, n, outs)

/-- The `finally` block: `kb.multiThreadMode` is cleared and the
cleanup callback, when present, is invoked exactly once.  The cleanup
argument is `Option.none` for no callback, `some Option.none` for a
callback that returns normally, and `some (some k)` for one raising
`k`: a KeyboardInterrupt from cleanup is re-raised (replacing any
pending exception), any other cleanup failure is caught and logged. -/
def runCleanup (cleanup : Option (Option ExKind)) (kb : KBState) (pending : Option ExKind) :
    KBState × Option ExKind :=
  let kb1 := { kb with multiThreadMode := false }
  match cleanup with
  | Option.none => (kb1, pending)
  | some Option.none => ({ kb1 with cleanupRuns := kb1.cleanupRuns + 1 }, pending)
  | some (some k) =>
    if k = ExKind.keyboardInterrupt then
      ({ kb1 with cleanupRuns := kb1.cleanupRuns + 1 }, some ExKind.keyboardInterrupt)
    else
      ({ kb1 with cleanupRuns := kb1.cleanupRuns + 1,
                  log := kb1.log ++ [LogEv.cleanupError k] }, pending)

/-- Aggregate observable result of one runThreadsWithPool call. -/
structure RunOutcome where
  kb : KBState
  raised : Option ExKind
  submitted : Nat
  outcomes : List (Option ExKind)
deriving DecidableEq

/-- `runThreadsWithPool(numThreads, threadFunction, cleanupFunction,
forwardException, threadChoice, startThreadMsg)`: the core body
followed by the `finally` block. -/
def runThreadsWithPool (numThreads : Int) (cpuCount : Nat) (work : Nat → Nat → Option ExKind)
    (cleanupFunction : Option (Option ExKind))
    (forwardException threadChoice startThreadMsg : Bool) (kb0 : KBState) : RunOutcome :=
  let r := runCore numThreads cpuCount work forwardException threadChoice startThreadMsg kb0
  let c := runCleanup cleanupFunction r.1 r.2.1
  ⟨c.1, c.2, r.2.2.1, r.2.2.2⟩

/-- The initial kb state used by concrete batch runs. -/
def kbInit : KBState :=
  { multiThreadMode := false, threadException := false, multipleCtrlC := false,
    log := [], cleanupRuns := 0 }

/-!  Helper lemmas about association lists. -/

/-!  Lemmas about the pop-and-probe loop. -/

def keyA : EKey := ("a.com", 80, false)

def keyB : EKey := ("b.com", 443, true)

def stC2 : CPState :=
  { pools := [(keyA, [7])], stats := [(keyA, ⟨0, 0, 0⟩)], lockKeys := [keyA],
    maxConn := 10, nextId := 8, closedConns := [] }

def stC3 : CPState :=
  { pools := [(keyA, [5])], stats := [(keyA, ⟨10, 0, 0⟩)], lockKeys := [keyA],
    maxConn := 10, nextId := 6, closedConns := [] }

def stC3w : CPState :=
  { pools := [(keyA, [5])], stats := [(keyA, ⟨3, 2, 1⟩)], lockKeys := [keyA],
    maxConn := 10, nextId := 6, closedConns := [] }

def stC4 : CPState :=
  { pools := [(keyA, [])], stats := [(keyA, ⟨1, 0, 0⟩)], lockKeys := [keyA],
    maxConn := 10, nextId := 5, closedConns := [] }

def stC5 : CPState :=
  { pools := [(keyA, [1]), (keyB, [2])], stats := [(keyA, ⟨3, 1, 0⟩), (keyB, ⟨2, 0, 1⟩)],
    lockKeys := [keyA, keyB], maxConn := 10, nextId := 9, closedConns := [] }

def stC10 : CPState :=
  { pools := [(keyB, [4])], stats := [(keyB, ⟨1, 0, 0⟩)], lockKeys := [keyB],
    maxConn := 10, nextId := 5, closedConns := [] }

def st9 : CacheState :=
  { enabled := true, hasAttr := true, cache := [(1, 10), (2, 20)], hits := 0, misses := 0,
    size := 2, evalCount := 0 }

def workC1 : Nat → Nat → Option ExKind :=
  fun i _ => if i = 2 then some ExKind.generic else Option.none

def workC1w : Nat → Nat → Option ExKind :=
  fun i _ => if i = 1 then some ExKind.connection else Option.none

theorem alget_alset_self {α β : Type} [DecidableEq α] (k : α) (v : β) (l : List (α × β)) :
    alget k (alset k v l) = some v := by
  induction l with
  | nil => simp [alget, alset]
  | cons hd t ih =>
    obtain ⟨k₁, v₁⟩ := hd
    by_cases h : k₁ = k
    · simp [alget, alset, h]
    · simp [alget, alset, h, ih]

theorem alget_alset_ne {α β : Type} [DecidableEq α] {k k₂ : α} (v : β) (l : List (α × β))
    (h : k₂ ≠ k) : alget k₂ (alset k v l) = alget k₂ l := by
  have h2 : k ≠ k₂ := Ne.symm h
  induction l with
  | nil => simp [alget, alset, h2]
  | cons hd t ih =>
    obtain ⟨k₁, v₁⟩ := hd
    by_cases h1 : k₁ = k
    · subst h1
      simp [alget, alset, h2]
    · simp only [alset, h1, if_false]
      by_cases h3 : k₁ = k₂
      · simp [alget, h3]
      · simp [alget, h3, ih]

theorem alget_mem_fst {α β : Type} [DecidableEq α] {k : α} {v : β} {l : List (α × β)}
    (h : alget k l = some v) : k ∈ l.map Prod.fst := by
  induction l with
  | nil => simp [alget] at h
  | cons hd t ih =>
    obtain ⟨k₁, v₁⟩ := hd
    by_cases h1 : k₁ = k
    · simp [h1]
    · simp only [alget, h1, if_false] at h
      simp [ih h]

theorem scanIdle_all_false {probe : Nat → Bool} {l : List Nat}
    (h : ∀ x ∈ l, probe x = false) : scanIdle probe l = (Option.none, [], l.length) := by
  induction l with
  | nil => simp [scanIdle]
  | cons c cs ih =>
    have hc : probe c = false := h c (by simp)
    have ihh := ih fun x hx => h x (by simp [hx])
    simp [scanIdle, hc, ihh]

theorem scanIdle_found {probe : Nat → Bool} {bad rest : List Nat} {c : Nat}
    (hbad : ∀ x ∈ bad, probe x = false) (hc : probe c = true) :
    scanIdle probe (bad ++ c :: rest) = (some c, rest, bad.length) := by
  induction bad with
  | nil => simp [scanIdle, hc]
  | cons b bs ih =>
    have hb : probe b = false := hbad b (by simp)
    have ihh := ih fun x hx => hbad x (by simp [hx])
    simp [scanIdle, hb, ihh]

theorem scanIdle_some_mem {probe : Nat → Bool} {l : List Nat} {c : Nat}
    (h : (scanIdle probe l).1 = some c) : c ∈ l := by
  induction l with
  | nil => simp [scanIdle] at h
  | cons b bs ih =>
    by_cases hb : probe b
    · simp [scanIdle, hb] at h
      simp [h]
    · simp only [scanIdle, hb, Bool.false_eq_true, if_false] at h
      simp [ih h]

theorem get_connection_result_cases (probe : Nat → Bool) (co : Bool) (host : String)
    (port : Nat) (ssl : Bool) (st : CPState) (c : Nat)
    (h : (get_connection probe co host port ssl st).1 = some c) :
    (∃ l, alget (host, port, ssl) st.pools = some l ∧ c ∈ l) ∨ c = st.nextId := by
  simp only [get_connection] at h
  rcases hcase : alget ((host, port, ssl) : EKey) st.pools with _ | idle
  · simp only [hcase, Option.isSome_none, Bool.false_eq_true, if_false, alget_alset_self,
      Option.getD_some, List.reverse_nil, scanIdle] at h
    split at h
    · split at h
      · cases h
        right
        rfl
      · simp at h
    · simp at h
  · simp only [hcase, Option.isSome_some, if_true, Option.getD_some] at h
    split at h
    · rename_i c2 hscan
      cases h
      exact Or.inl ⟨idle, rfl, List.mem_reverse.mp (scanIdle_some_mem hscan)⟩
    · rename_i hscan
      split at h
      · split at h
        · cases h
          right
          rfl
        · simp at h
      · simp at h

theorem closeAllKey_fields (k : EKey) (st : CPState) :
    (closeAllKey k st).stats = st.stats ∧ (closeAllKey k st).lockKeys = st.lockKeys
    ∧ (closeAllKey k st).maxConn = st.maxConn ∧ (closeAllKey k st).nextId = st.nextId := by
  unfold closeAllKey
  split
  · split <;> simp
  · simp

theorem closeAllKey_pools_ne {k k2 : EKey} (st : CPState) (h : k2 ≠ k) :
    alget k2 (closeAllKey k st).pools = alget k2 st.pools := by
  unfold closeAllKey
  split
  · split
    · simp [alget_alset_ne _ _ h]
    · rfl
  · rfl

theorem closeAllKey_pools_none {k2 : EKey} (k : EKey) (st : CPState)
    (h : alget k2 st.pools = Option.none) :
    alget k2 (closeAllKey k st).pools = Option.none := by
  by_cases he : k2 = k
  · subst he
    unfold closeAllKey
    split
    · simp [h]
    · exact h
  · rw [closeAllKey_pools_ne st he]
    exact h

theorem closeAllKey_pools_self {k : EKey} (st : CPState) (hl : k ∈ st.lockKeys)
    {idle : List Nat} (hp : alget k st.pools = some idle) :
    alget k (closeAllKey k st).pools = some [] := by
  unfold closeAllKey
  simp [hl, hp, alget_alset_self]

theorem closeAllKey_pools_empty {k2 : EKey} (k : EKey) (st : CPState)
    (h : alget k2 st.pools = some []) :
    alget k2 (closeAllKey k st).pools = some [] := by
  by_cases he : k2 = k
  · subst he
    unfold closeAllKey
    split
    · simp [h, alget_alset_self]
    · exact h
  · rw [closeAllKey_pools_ne st he]
    exact h

theorem foldl_closeAll_fields (L : List EKey) (st : CPState) :
    ((L.foldl (fun acc x => closeAllKey x acc) st).stats = st.stats)
    ∧ ((L.foldl (fun acc x => closeAllKey x acc) st).lockKeys = st.lockKeys)
    ∧ ((L.foldl (fun acc x => closeAllKey x acc) st).maxConn = st.maxConn)
    ∧ ((L.foldl (fun acc x => closeAllKey x acc) st).nextId = st.nextId) := by
  induction L generalizing st with
  | nil => exact ⟨rfl, rfl, rfl, rfl⟩
  | cons x L ih =>
    have h1 := closeAllKey_fields x st
    have h2 := ih (closeAllKey x st)
    simp only [List.foldl_cons]
    exact ⟨h2.1.trans h1.1, h2.2.1.trans h1.2.1, h2.2.2.1.trans h1.2.2.1,
      h2.2.2.2.trans h1.2.2.2⟩

theorem foldl_closeAll_frame (L : List EKey) (st : CPState) {k : EKey} (h : k ∉ L) :
    alget k (L.foldl (fun acc x => closeAllKey x acc) st).pools = alget k st.pools := by
  induction L generalizing st with
  | nil => rfl
  | cons x L ih =>
    have hne : k ≠ x := fun he => h (he ▸ List.mem_cons_self x L)
    simp only [List.foldl_cons]
    rw [ih _ (fun hm => h (List.mem_cons_of_mem _ hm)), closeAllKey_pools_ne st hne]

theorem foldl_closeAll_none (L : List EKey) (st : CPState) {k : EKey}
    (h : alget k st.pools = Option.none) :
    alget k (L.foldl (fun acc x => closeAllKey x acc) st).pools = Option.none := by
  induction L generalizing st with
  | nil => exact h
  | cons x L ih => exact ih _ (closeAllKey_pools_none x st h)

theorem foldl_closeAll_empty (L : List EKey) (st : CPState) {k : EKey}
    (h : alget k st.pools = some []) :
    alget k (L.foldl (fun acc x => closeAllKey x acc) st).pools = some [] := by
  induction L generalizing st with
  | nil => exact h
  | cons x L ih => exact ih _ (closeAllKey_pools_empty x st h)

theorem foldl_closeAll_mem (L : List EKey) (st : CPState) {k : EKey} {idle : List Nat}
    (hk : k ∈ L) (hl : k ∈ st.lockKeys) (hp : alget k st.pools = some idle) :
    alget k (L.foldl (fun acc x => closeAllKey x acc) st).pools = some [] := by
  induction L generalizing st idle with
  | nil => cases hk
  | cons x L ih =>
    simp only [List.foldl_cons]
    by_cases he : k = x
    · subst he
      exact foldl_closeAll_empty L _ (closeAllKey_pools_self st hl hp)
    · rcases List.mem_cons.mp hk with h1 | h2
      · exact absurd h1 he
      · have hp2 : alget k (closeAllKey x st).pools = some idle := by
          rw [closeAllKey_pools_ne st he]
          exact hp
        have hl2 : k ∈ (closeAllKey x st).lockKeys := by
          rw [(closeAllKey_fields x st).2.1]
          exact hl
        exact ih _ h2 hl2 hp2

theorem foldl_cond_eq_filter (c : EKey → Bool) (L : List EKey) (st : CPState) :
    L.foldl (fun acc x => if c x then closeAllKey x acc else acc) st
      = (L.filter c).foldl (fun acc x => closeAllKey x acc) st := by
  induction L generalizing st with
  | nil => rfl
  | cons x L ih =>
    by_cases hx : c x
    · simp [List.filter_cons, hx, ih]
    · simp [List.filter_cons, hx, ih]

theorem clear_pool_fields (h : Option String) (p : Option Nat) (s : Option Bool)
    (st : CPState) :
    ((clear_pool h p s st).stats = st.stats) ∧ ((clear_pool h p s st).lockKeys = st.lockKeys)
    ∧ ((clear_pool h p s st).maxConn = st.maxConn)
    ∧ ((clear_pool h p s st).nextId = st.nextId) := by
  unfold clear_pool
  split
  · exact foldl_closeAll_fields _ _
  · rw [foldl_cond_eq_filter]
    exact foldl_closeAll_fields _ _

/-- C5, confirmed.  clear_pool with at least one filter field set
leaves the idle sequence of every non-matching key unchanged and never
touches any counters (the stats map is preserved verbatim), while
every matching populated key is emptied; matching is exact equality
per specified field, unset fields match anything. -/
theorem C5_clear_filter_frame (h : Option String) (p : Option Nat) (s : Option Bool)
    (st : CPState) (k : EKey)
    (hfilter : h ≠ Option.none ∨ p ≠ Option.none ∨ s ≠ Option.none)
    (hmatch : matchKey h p s k = false) :
    alget k (clear_pool h p s st).pools = alget k st.pools
    ∧ (clear_pool h p s st).stats = st.stats
    ∧ (∀ k2 idle2, matchKey h p s k2 = true → k2 ∈ st.lockKeys →
        alget k2 st.pools = some idle2 →
        alget k2 (clear_pool h p s st).pools = some []) := by
  have hcond : ¬ (h = Option.none ∧ p = Option.none ∧ s = Option.none) := by
    rcases hfilter with h1 | h1 | h1 <;> tauto
  refine ⟨?_, ?_, ?_⟩
  · unfold clear_pool
    rw [if_neg hcond, foldl_cond_eq_filter]
    apply foldl_closeAll_frame
    intro hmem
    have hcontra := (List.mem_filter.mp hmem).2
    rw [hmatch] at hcontra
    cases hcontra
  · exact (clear_pool_fields h p s st).1
  · intro k2 idle2 hm2 hl2 hp2
    unfold clear_pool
    rw [if_neg hcond, foldl_cond_eq_filter]
    exact foldl_closeAll_mem _ _
      (List.mem_filter.mpr ⟨alget_mem_fst hp2, hm2⟩) hl2 hp2

/-- C3, corrected.  clear_pool with no filter empties every idle
sequence; a subsequent get_connection on a previously populated key
creates a new connection and increments that key's created counter
PROVIDED the cumulative created count is still below the capacity
limit and creation succeeds.  The unconditional claim is refuted by
C3_counterexample. -/
theorem C3_clear_then_acquire (probe : Nat → Bool) (host : String) (port : Nat) (ssl : Bool)
    (st : CPState) (idle : List Nat) (s : Stats)
    (hlock : ∀ k ∈ st.pools.map Prod.fst, k ∈ st.lockKeys)
    (hpool : alget ((host, port, ssl) : EKey) st.pools = some idle)
    (hstat : alget ((host, port, ssl) : EKey) st.stats = some s)
    (hcap : s.created < st.maxConn) :
    (∀ k, alget k (clear_pool Option.none Option.none Option.none st).pools = Option.none
        ∨ alget k (clear_pool Option.none Option.none Option.none st).pools = some [])
    ∧ (get_connection probe true host port ssl
         (clear_pool Option.none Option.none Option.none st)).1
        = some (clear_pool Option.none Option.none Option.none st).nextId
    ∧ alget ((host, port, ssl) : EKey)
        ((get_connection probe true host port ssl
           (clear_pool Option.none Option.none Option.none st)).2).stats
        = some { s with created := s.created + 1 } := by
  have hcp : clear_pool Option.none Option.none Option.none st
      = (st.pools.map Prod.fst).foldl (fun acc x => closeAllKey x acc) st := by
    unfold clear_pool
    rw [if_pos ⟨rfl, rfl, rfl⟩]
  have hempty : alget ((host, port, ssl) : EKey)
      (clear_pool Option.none Option.none Option.none st).pools = some [] := by
    rw [hcp]
    exact foldl_closeAll_mem _ _ (alget_mem_fst hpool)
      (hlock _ (alget_mem_fst hpool)) hpool
  have hfields := clear_pool_fields Option.none Option.none Option.none st
  have hstat2 : alget ((host, port, ssl) : EKey)
      (clear_pool Option.none Option.none Option.none st).stats = some s := by
    rw [hfields.1]
    exact hstat
  refine ⟨?_, ?_, ?_⟩
  · intro k
    rcases hk : alget k st.pools with _ | l
    · left
      rw [hcp]
      exact foldl_closeAll_none _ _ hk
    · right
      rw [hcp]
      exact foldl_closeAll_mem _ _ (alget_mem_fst hk) (hlock _ (alget_mem_fst hk)) hk
  · simp only [get_connection, hempty, Option.isSome_some, if_true, Option.getD_some,
      hstat2, List.reverse_nil, scanIdle, List.length_nil]
    rw [hfields.2.2.1]
    simp [hcap]
  · simp only [get_connection, hempty, Option.isSome_some, if_true, Option.getD_some,
      hstat2, List.reverse_nil, scanIdle, List.length_nil]
    rw [hfields.2.2.1]
    simp [hcap, alget_alset_self]

/-- C10, confirmed.  Releasing a connection with reuse = true to an
endpoint key for which no pool exists returns with the registry state
completely unchanged: nothing is closed, nothing is pooled, and all
counters are untouched. -/
theorem C10_release_unknown_key (probe : Nat → Bool) (conn : Nat) (host : String)
    (port : Nat) (ssl : Bool) (st : CPState)
    (h : alget ((host, port, ssl) : EKey) st.pools = Option.none) :
    release_connection probe conn host port ssl true st = st := by
  simp [release_connection, h]

/-- C4, corrected.  release_connection with reuse = false closes the
connection; an invalid connection released with reuse = true is closed
but NO counter is incremented (failed is not incremented, refuting the
claim, see C4_counterexample); a valid connection is pushed in LIFO
position when the pool is under capacity (the next acquire returns
it) and closed when the pool is full; a connection released with
reuse = false never reappears from a subsequent acquire. -/
theorem C4_release_contract (probe : Nat → Bool) (co : Bool) (conn : Nat) (host : String)
    (port : Nat) (ssl : Bool) (st : CPState) (idle : List Nat)
    (hpool : alget ((host, port, ssl) : EKey) st.pools = some idle) :
    (release_connection probe conn host port ssl false st
        = { st with closedConns := st.closedConns ++ [conn] })
    ∧ (probe conn = false →
        release_connection probe conn host port ssl true st
          = { st with closedConns := st.closedConns ++ [conn] })
    ∧ (probe conn = true → idle.length < st.maxConn →
        release_connection probe conn host port ssl true st
          = { st with pools := alset (host, port, ssl) (idle ++ [conn]) st.pools }
        ∧ (get_connection probe co host port ssl
             { st with pools := alset (host, port, ssl) (idle ++ [conn]) st.pools }).1
            = some conn)
    ∧ (probe conn = true → ¬ idle.length < st.maxConn →
        release_connection probe conn host port ssl true st
          = { st with closedConns := st.closedConns ++ [conn] })
    ∧ ((∀ k l2, alget k st.pools = some l2 → conn ∉ l2) → conn < st.nextId →
        ∀ h2 p2 b2,
          (get_connection probe co h2 p2 b2
             (release_connection probe conn host port ssl false st)).1 ≠ some conn) := by
  refine ⟨?_, ?_, ?_, ?_, ?_⟩
  · simp [release_connection]
  · intro hp
    simp [release_connection, hpool, hp]
  · intro hp hlen
    constructor
    · simp [release_connection, hpool, hp, hlen]
    · have hkey : alget ((host, port, ssl) : EKey)
          (alset ((host, port, ssl) : EKey) (idle ++ [conn]) st.pools)
          = some (idle ++ [conn]) := alget_alset_self _ _ _
      simp only [get_connection, hkey, Option.isSome_some, if_true, Option.getD_some]
      rw [List.reverse_append]
      simp [scanIdle, hp]
  · intro hp hlen
    simp [release_connection, hpool, hp, hlen]
  · intro hnot hid h2 p2 b2 hc
    have hrel : release_connection probe conn host port ssl false st
        = { st with closedConns := st.closedConns ++ [conn] } := by
      simp [release_connection]
    rw [hrel] at hc
    rcases get_connection_result_cases probe co h2 p2 b2 _ conn hc with ⟨l2, hl2, hmem⟩ | hnid
    · exact hnot _ _ hl2 hmem
    · simp only at hnid
      omega

/-- C2, corrected.  get_connection pops idle connections most recently
released first and probes each; a passing connection increments reused
and is returned; a failing connection increments failed and is dropped
from the idle sequence WITHOUT an explicit close; when the idle
sequence empties, a new connection is created exactly when
created + len(idle) is under the capacity limit, and a creation
failure returns the same Exhausted signal (None) as capacity
exhaustion rather than a distinct error; at or over capacity None is
returned.  The close and distinct-error parts of the claim are refuted
by C2_counterexample. -/
theorem C2_acquire_contract (probe : Nat → Bool) (co : Bool) (host : String) (port : Nat)
    (ssl : Bool) (st : CPState) (idle : List Nat) (s : Stats)
    (hpool : alget ((host, port, ssl) : EKey) st.pools = some idle)
    (hstat : alget ((host, port, ssl) : EKey) st.stats = some s) :
    (∀ bad c rest, idle.reverse = bad ++ c :: rest → (∀ x ∈ bad, probe x = false) →
        probe c = true →
        get_connection probe co host port ssl st
          = (some c,
             { st with pools := alset (host, port, ssl) rest.reverse st.pools,
                       stats := alset (host, port, ssl)
                         ⟨s.created, s.reused + 1, s.failed + bad.length⟩ st.stats }))
    ∧ ((∀ x ∈ idle, probe x = false) →
        ((s.created < st.maxConn →
            get_connection probe true host port ssl st
              = (some st.nextId,
                 { st with pools := alset (host, port, ssl) ([] : List Nat) st.pools,
                           stats := alset (host, port, ssl)
                             ⟨s.created + 1, s.reused, s.failed + idle.length⟩ st.stats,
                           nextId := st.nextId + 1 }))
          ∧ (s.created < st.maxConn →
              get_connection probe false host port ssl st
                = (Option.none,
                   { st with pools := alset (host, port, ssl) ([] : List Nat) st.pools,
                             stats := alset (host, port, ssl)
                               ⟨s.created, s.reused, s.failed + idle.length⟩ st.stats }))
          ∧ (¬ s.created < st.maxConn →
              get_connection probe co host port ssl st
                = (Option.none,
                   { st with pools := alset (host, port, ssl) ([] : List Nat) st.pools,
                             stats := alset (host, port, ssl)
                               ⟨s.created, s.reused, s.failed + idle.length⟩ st.stats })))) := by
  constructor
  · intro bad c rest hrev hbad hc
    simp only [get_connection, hpool, Option.isSome_some, if_true, Option.getD_some,
      hstat, hrev, scanIdle_found hbad hc]
  · intro hall
    have hrevall : ∀ x ∈ idle.reverse, probe x = false := by
      intro x hx
      exact hall x (List.mem_reverse.mp hx)
    have hscan := scanIdle_all_false hrevall
    refine ⟨?_, ?_, ?_⟩
    · intro hcap
      simp only [get_connection, hpool, Option.isSome_some, if_true, Option.getD_some,
        hstat, hscan, List.reverse_nil, List.length_nil, List.length_reverse]
      simp [hcap]
    · intro hcap
      simp only [get_connection, hpool, Option.isSome_some, if_true, Option.getD_some,
        hstat, hscan, List.reverse_nil, List.length_nil, List.length_reverse]
      simp [hcap]
    · intro hcap
      simp only [get_connection, hpool, Option.isSome_some, if_true, Option.getD_some,
        hstat, hscan, List.reverse_nil, List.length_nil, List.length_reverse]
      simp [hcap]

/-- C2 counterexample: with one invalid idle connection and a failing
creation, get_connection increments failed but closes nothing
(closedConns stays empty) and returns None even though the pool is
under capacity, so a creation failure is indistinguishable from the
Exhausted signal. -/
theorem C2_counterexample :
    (get_connection (fun _ => false) false "a.com" 80 false stC2).1 = Option.none
    ∧ ((get_connection (fun _ => false) false "a.com" 80 false stC2).2).closedConns = []
    ∧ alget keyA ((get_connection (fun _ => false) false "a.com" 80 false stC2).2).stats
        = some ⟨0, 0, 1⟩
    ∧ (0 : Nat) < stC2.maxConn := by
  decide

/-- C2 witness: concrete instance of C2_acquire_contract (reuse of a
valid idle connection). -/
theorem C2_witness :
    get_connection (fun _ => true) true "a.com" 80 false stC2
      = (some 7, { stC2 with pools := alset keyA ([] : List Nat) stC2.pools,
                             stats := alset keyA ⟨0, 1, 0⟩ stC2.stats }) := by
  have h := (C2_acquire_contract (fun _ => true) true "a.com" 80 false stC2 [7] ⟨0, 0, 0⟩
      (by decide) (by decide)).1 [] 7 [] (by decide) (by decide) (by decide)
  simpa using h

/-- C3 counterexample: a key whose created counter already equals the
capacity limit: after clear_pool the idle sequence is empty, yet the
subsequent get_connection returns None and created stays unchanged,
because the capacity test uses the cumulative created counter. -/
theorem C3_counterexample :
    alget keyA (clear_pool Option.none Option.none Option.none stC3).pools = some []
    ∧ (get_connection (fun _ => true) true "a.com" 80 false
         (clear_pool Option.none Option.none Option.none stC3)).1 = Option.none
    ∧ alget keyA ((get_connection (fun _ => true) true "a.com" 80 false
         (clear_pool Option.none Option.none Option.none stC3)).2).stats
        = some ⟨10, 0, 0⟩ := by
  decide

/-- C3 witness: concrete instance of C3_clear_then_acquire. -/
theorem C3_witness :
    (get_connection (fun _ => true) true "a.com" 80 false
       (clear_pool Option.none Option.none Option.none stC3w)).1
      = some (clear_pool Option.none Option.none Option.none stC3w).nextId
    ∧ alget keyA ((get_connection (fun _ => true) true "a.com" 80 false
         (clear_pool Option.none Option.none Option.none stC3w)).2).stats
        = some ⟨4, 2, 1⟩ := by
  have h := C3_clear_then_acquire (fun _ => true) "a.com" 80 false stC3w [5] ⟨3, 2, 1⟩
    (by decide) (by decide) (by decide) (by decide)
  exact ⟨h.2.1, by simpa using h.2.2⟩

/-- C4 counterexample: releasing an invalid connection (probe fails)
with reuse = true closes it but leaves the stats record unchanged:
failed stays 0 where the claim requires an increment. -/
theorem C4_counterexample :
    (release_connection (fun _ => false) 3 "a.com" 80 false true stC4).closedConns = [3]
    ∧ alget keyA (release_connection (fun _ => false) 3 "a.com" 80 false true stC4).stats
        = some ⟨1, 0, 0⟩ := by
  decide

/-- C4 witness: concrete instance of C4_release_contract. -/
theorem C4_witness :
    release_connection (fun _ => true) 7 "a.com" 80 false false stC4
      = { stC4 with closedConns := [7] }
    ∧ (get_connection (fun _ => true) true "a.com" 80 false
         { stC4 with pools := alset keyA ([] ++ [7]) stC4.pools }).1 = some 7 := by
  have h := C4_release_contract (fun _ => true) true 7 "a.com" 80 false stC4 [] (by decide)
  exact ⟨h.1, (h.2.2.1 rfl (by decide)).2⟩

/-- C5 witness: clear_pool with host a.com leaves the pools and
counters of the b.com key unchanged. -/
theorem C5_witness :
    alget keyB (clear_pool (some "a.com") Option.none Option.none stC5).pools
      = alget keyB stC5.pools
    ∧ (clear_pool (some "a.com") Option.none Option.none stC5).stats = stC5.stats := by
  have h := C5_clear_filter_frame (some "a.com") Option.none Option.none stC5 keyB
    (Or.inl (by simp)) (by decide)
  exact ⟨h.1, h.2.1⟩

/-- C10 witness: concrete instance of C10_release_unknown_key. -/
theorem C10_witness :
    release_connection (fun _ => true) 9 "a.com" 80 false true stC10 = stC10 := by
  exact C10_release_unknown_key (fun _ => true) 9 "a.com" 80 false stC10 (by decide)

/-- C7, corrected.  set_optimization_config rejects unknown keys and
wrongly-typed values by returning false with the configuration map and
flag table entirely unchanged, and an accepted call updates exactly
the named key; enable_optimization rejects unknown names the same way,
but performs NO type validation on the enabled value: any value is
accepted and stored for a known name (refuting the claim for setFlag,
see C7_counterexample). -/
theorem C7_config_contract (st : OptState) (key name : String) (value : PyVal) :
    ((alget name st.flags).isNone → enable_optimization name value st = (false, st))
    ∧ ((alget key st.config).isNone → set_optimization_config key value st = (false, st))
    ∧ ((alget key st.config).isSome → configTypeOk key value = false →
        set_optimization_config key value st = (false, st))
    ∧ ((alget key st.config).isSome → configTypeOk key value = true →
        (set_optimization_config key value st).1 = true
        ∧ (set_optimization_config key value st).2.config = alset key value st.config
        ∧ (set_optimization_config key value st).2.flags = st.flags
        ∧ ∀ k2, k2 ≠ key →
            alget k2 (set_optimization_config key value st).2.config = alget k2 st.config)
    ∧ ((alget name st.flags).isSome →
        (enable_optimization name value st).1 = true
        ∧ (enable_optimization name value st).2.flags = alset name value st.flags) := by
  refine ⟨?_, ?_, ?_, ?_, ?_⟩
  · intro h
    simp [enable_optimization, h]
  · intro h
    simp [set_optimization_config, h]
  · intro hs ht
    obtain ⟨v0, hv0⟩ := Option.isSome_iff_exists.mp hs
    by_cases h1 : key = "max_connections_per_host"
    · subst h1
      simp [configTypeOk] at ht
      simp [set_optimization_config, hv0, ht]
    · by_cases h2 : key = "thread_pool_size"
      · subst h2
        simp [configTypeOk] at ht
        simp [set_optimization_config, hv0, ht.1, ht.2]
      · by_cases h3 : key = "query_cache_size"
        · subst h3
          simp [configTypeOk] at ht
          simp [set_optimization_config, hv0, ht]
        · by_cases h4 : key = "enable_http2" ∨ key = "enable_compression"
              ∨ key = "enable_dns_cache"
          · rcases h4 with h5 | h5 | h5 <;> subst h5 <;>
              (simp [configTypeOk] at ht
               simp [set_optimization_config, hv0, ht])
          · simp [configTypeOk, h1, h2, h3, h4] at ht
  · intro hs ht
    obtain ⟨v0, hv0⟩ := Option.isSome_iff_exists.mp hs
    have hfall : set_optimization_config key value st
        = (if key = "max_connections_per_host"
              ∧ truthy ((alget "http_connection_pool" st.flags).getD PyVal.none) = true then
             (true, { st with config := alset key value st.config, kbMaxConn := some value })
           else (true, { st with config := alset key value st.config })) := by
      by_cases h1 : key = "max_connections_per_host"
      · subst h1
        simp [configTypeOk] at ht
        simp [set_optimization_config, hv0, ht]
      · by_cases h2 : key = "thread_pool_size"
        · subst h2
          simp [configTypeOk] at ht
          by_cases hv : value = PyVal.none
          · simp [set_optimization_config, hv0, hv]
          · have hti : isInstInt value = true := ht.resolve_left hv
            simp [set_optimization_config, hv0, hv, hti]
        · by_cases h3 : key = "query_cache_size"
          · subst h3
            simp [configTypeOk] at ht
            simp [set_optimization_config, hv0, ht, h1, h2]
          · by_cases h4 : key = "enable_http2" ∨ key = "enable_compression"
                ∨ key = "enable_dns_cache"
            · rcases h4 with h5 | h5 | h5 <;> subst h5 <;>
                (simp [configTypeOk] at ht
                 simp [set_optimization_config, hv0, ht])
            · simp [set_optimization_config, hv0, h1, h2, h3, h4]
    rw [hfall]
    refine ⟨?_, ?_, ?_, ?_⟩
    · split <;> rfl
    · split <;> rfl
    · split <;> rfl
    · intro k2 hk2
      split <;> exact alget_alset_ne _ _ hk2
  · intro hs
    obtain ⟨v0, hv0⟩ := Option.isSome_iff_exists.mp hs
    constructor
    · simp only [enable_optimization, hv0, Option.isNone_some]
      rw [if_neg (by simp)]
      split
      · rfl
      · split
        · rfl
        · split
          · rfl
          · split <;> rfl
    · simp only [enable_optimization, hv0, Option.isNone_some]
      rw [if_neg (by simp)]
      split
      · rfl
      · split
        · rfl
        · split
          · rfl
          · split <;> rfl

/-- C7 counterexample: enable_optimization accepts a string value for
the query_cache flag, returning true and storing the non-boolean in
the flag table, instead of rejecting the wrongly-typed value. -/
theorem C7_counterexample :
    (enable_optimization "query_cache" (PyVal.str "x") initOptState).1 = true
    ∧ alget "query_cache"
        (enable_optimization "query_cache" (PyVal.str "x") initOptState).2.flags
        = some (PyVal.str "x") := by
  decide

/-- C7 witness: concrete instance of C7_config_contract on the
capacity key: a string is rejected with no change, an integer is
accepted and stored. -/
theorem C7_witness :
    set_optimization_config "max_connections_per_host" (PyVal.str "no") initOptState
      = (false, initOptState)
    ∧ (set_optimization_config "max_connections_per_host" (PyVal.int 25) initOptState).1 = true
    ∧ alget "max_connections_per_host"
        (set_optimization_config "max_connections_per_host" (PyVal.int 25)
          initOptState).2.config = some (PyVal.int 25) := by
  have h1 := (C7_config_contract initOptState "max_connections_per_host" "x"
      (PyVal.str "no")).2.2.1 (by decide) (by decide)
  have h2 := (C7_config_contract initOptState "max_connections_per_host" "x"
      (PyVal.int 25)).2.2.2.1 (by decide) (by decide)
  refine ⟨h1, h2.1, ?_⟩
  rw [h2.2.1]
  exact alget_alset_self _ _ _

theorem cachedCall_step (st : CacheState) (k v : Nat) (he : st.enabled = true)
    (ha : st.hasAttr = true) (hs : 1 ≤ st.size) (hlen : st.cache.length ≤ st.size) :
    ∃ r, cachedCall st k v = some r ∧ r.2.cache.length ≤ st.size
      ∧ r.2.enabled = true ∧ r.2.hasAttr = true ∧ r.2.size = st.size := by
  rcases halget : alget k st.cache with _ | w
  · by_cases hfull : st.size ≤ st.cache.length
    · rcases hc : st.cache with _ | ⟨e, rest⟩
      · rw [hc] at hfull
        simp only [List.length_nil, Nat.le_zero] at hfull
        omega
      · have hlen2 : st.cache.length = rest.length + 1 := by
          rw [hc]
          rfl
        refine ⟨(v, { st with cache := rest ++ [(k, v)], misses := st.misses + 1, evalCount := st.evalCount + 1 }), ?_, ?_, he, ha, rfl⟩
        · simp only [cachedCall, he, ha, halget]
          rw [if_neg (by simp)]
          rw [if_pos hfull]
          simp [hc]
        · simp only [List.length_append, List.length_cons, List.length_nil]
          omega
    · refine ⟨(v, { st with cache := st.cache ++ [(k, v)], misses := st.misses + 1, evalCount := st.evalCount + 1 }), ?_, ?_, he, ha, rfl⟩
      · simp only [cachedCall, he, ha, halget]
        rw [if_neg (by simp)]
        rw [if_neg hfull]
      · simp only [List.length_append, List.length_cons, List.length_nil]
        omega
  · exact ⟨(w, { st with hits := st.hits + 1 }),
      by simp [cachedCall, he, ha, halget], hlen, he, ha, rfl⟩

theorem cachedRun_bounded (reqs : List (Nat × Nat)) (st : CacheState) (he : st.enabled = true)
    (ha : st.hasAttr = true) (hs : 1 ≤ st.size) (hlen : st.cache.length ≤ st.size) :
    ∃ st2, cachedRun st reqs = some st2 ∧ st2.cache.length ≤ st.size := by
  induction reqs generalizing st with
  | nil => exact ⟨st, rfl, hlen⟩
  | cons q reqs ih =>
    obtain ⟨k, v⟩ := q
    obtain ⟨r, hr, hrlen, hre, hra, hrs⟩ := cachedCall_step st k v he ha hs hlen
    obtain ⟨st2, hst2, hlen2⟩ := ih r.2 hre hra (hrs ▸ hs) (hrs ▸ hrlen)
    refine ⟨st2, ?_, hrs ▸ hlen2⟩
    simp only [cachedRun, hr]
    exact hst2

/-- C9, confirmed.  While the query cache is enabled with a positive
size: any sequence of calls through the cached_query wrapper keeps the
cache at no more than query_cache_size entries; a call whose key is
present returns the cached value and increments the hit counter
without invoking the wrapped function; and when an insertion happens
with the cache at capacity the oldest-inserted entry (list head) is
the one evicted (FIFO). -/
theorem C9_cache_contract (st : CacheState) (reqs : List (Nat × Nat)) (key v w : Nat)
    (he : st.enabled = true) (ha : st.hasAttr = true) (hs : 1 ≤ st.size) :
    (st.cache.length ≤ st.size →
       ∃ st2, cachedRun st reqs = some st2 ∧ st2.cache.length ≤ st.size)
    ∧ (alget key st.cache = some w →
        cachedCall st key v = some (w, { st with hits := st.hits + 1 }))
    ∧ (alget key st.cache = Option.none → st.size ≤ st.cache.length →
        ∀ e rest, st.cache = e :: rest →
          cachedCall st key v
            = some (v, { st with cache := rest ++ [(key, v)], misses := st.misses + 1, evalCount := st.evalCount + 1 })) := by
  refine ⟨?_, ?_, ?_⟩
  · intro hlen
    exact cachedRun_bounded reqs st he ha hs hlen
  · intro hhit
    simp [cachedCall, he, ha, hhit]
  · intro hmiss hfull e rest hc
    simp only [cachedCall, he, ha, hmiss]
    rw [if_neg (by simp)]
    rw [if_pos hfull]
    simp [hc]

/-- C9 witness: concrete hit, FIFO eviction, and bounded run on a
two-entry cache. -/
theorem C9_witness :
    cachedCall st9 1 99 = some (10, { st9 with hits := 1 })
    ∧ cachedCall st9 3 30
        = some (30, { st9 with cache := [(2, 20), (3, 30)], misses := 1, evalCount := 1 })
    ∧ ∃ st2, cachedRun st9 [(3, 30), (4, 40), (1, 11)] = some st2
        ∧ st2.cache.length ≤ st9.size := by
  have h1 := C9_cache_contract st9 [(3, 30), (4, 40), (1, 11)] 1 99 10 rfl rfl (by decide)
  have h2 := C9_cache_contract st9 [] 3 30 0 rfl rfl (by decide)
  refine ⟨?_, ?_, h1.1 (by decide)⟩
  · simpa [st9] using h1.2.1 (by decide)
  · simpa [st9] using h2.2.2 (by decide) (by decide) (1, 10) [(2, 20)] rfl

theorem handleOuter_cleanupRuns (k : ExKind) (kb : KBState) :
    (handleOuter k kb).1.cleanupRuns = kb.cleanupRuns := by
  unfold handleOuter
  split
  · rfl
  · split
    · rfl
    · split <;> rfl

theorem handleOuter_nonKI {k : ExKind} (kb : KBState) (hk : k ≠ ExKind.keyboardInterrupt)
    (hmc : kb.multipleCtrlC = false) :
    handleOuter k kb
      = ({ kb with threadException := true,
                   log := kb.log ++ [LogEv.outerThreadError k] }, Option.none) := by
  unfold handleOuter
  by_cases hcv : k = ExKind.connection ∨ k = ExKind.value
  · rw [if_pos hcv]
  · rw [if_neg hcv, if_neg hk, if_neg (by simp [hmc])]

theorem collect_no_KI (multi : Bool) (l : List (Option ExKind))
    (h : ∀ o ∈ l, o ≠ some ExKind.keyboardInterrupt) : (collectLogs multi l).2 = Option.none := by
  induction l with
  | nil => rfl
  | cons o rest ih =>
    rcases o with _ | k
    · exact ih fun o ho => h o (List.mem_cons_of_mem _ ho)
    · have hk : k ≠ ExKind.keyboardInterrupt := by
        intro he
        exact h (some k) (List.mem_cons_self _ _) (by rw [he])
      simp only [collectLogs, hk, if_false]
      have ihh := ih fun o ho => h o (List.mem_cons_of_mem _ ho)
      split <;> simpa using ihh

theorem runCleanup_spec (cl : Option (Option ExKind)) (kb : KBState) (p : Option ExKind) :
    ((runCleanup cl kb p).1.multiThreadMode = false)
    ∧ ((runCleanup cl kb p).1.threadException = kb.threadException)
    ∧ ((runCleanup cl kb p).1.multipleCtrlC = kb.multipleCtrlC)
    ∧ ((runCleanup cl kb p).1.cleanupRuns = kb.cleanupRuns + (if cl.isSome then 1 else 0))
    ∧ (∀ e ∈ kb.log, e ∈ (runCleanup cl kb p).1.log)
    ∧ (cl ≠ some (some ExKind.keyboardInterrupt) → (runCleanup cl kb p).2 = p)
    ∧ (∀ k2, cl = some (some k2) → k2 ≠ ExKind.keyboardInterrupt →
        LogEv.cleanupError k2 ∈ (runCleanup cl kb p).1.log) := by
  rcases cl with _ | cl2
  · simp [runCleanup]
  · rcases cl2 with _ | k2
    · simp [runCleanup]
    · by_cases hk2 : k2 = ExKind.keyboardInterrupt
      · subst hk2
        simp [runCleanup]
      · simp [runCleanup, hk2]
        exact fun e he => Or.inl he

theorem runCore_cleanupRuns (numThreads : Int) (cpuCount : Nat)
    (work : Nat → Nat → Option ExKind) (fwd tc sm : Bool) (kb0 : KBState) :
    (runCore numThreads cpuCount work fwd tc sm kb0).1.cleanupRuns = kb0.cleanupRuns := by
  unfold runCore
  by_cases htc : tc = true ∧ 1 < effThreads numThreads cpuCount
  · rw [if_pos htc]
    simp [handleOuter_cleanupRuns]
  · rw [if_neg htc]
    rcases hE : (collectLogs (decide (1 < effThreads numThreads cpuCount))
        (batchOutcomes (effThreads numThreads cpuCount) work)).2 with _ | k
    · simp only [hE]
      rcases hF : (if fwd = true
          then firstFailure (batchOutcomes (effThreads numThreads cpuCount) work)
          else Option.none) with _ | k2
      · simp only [hF]
        simp [addLog, apply_ite KBState.cleanupRuns]
      · simp only [hF]
        simp [handleOuter_cleanupRuns, addLog, apply_ite KBState.cleanupRuns]
    · simp only [hE]
      simp [handleOuter_cleanupRuns, addLog, apply_ite KBState.cleanupRuns]

theorem runCore_sub_out (numThreads : Int) (cpuCount : Nat)
    (work : Nat → Nat → Option ExKind) (fwd sm : Bool) (kb0 : KBState) :
    (runCore numThreads cpuCount work fwd false sm kb0).2.2.1 = effThreads numThreads cpuCount
    ∧ (runCore numThreads cpuCount work fwd false sm kb0).2.2.2
        = batchOutcomes (effThreads numThreads cpuCount) work := by
  unfold runCore
  rw [if_neg (by simp)]
  rcases hE : (collectLogs (decide (1 < effThreads numThreads cpuCount))
      (batchOutcomes (effThreads numThreads cpuCount) work)).2 with _ | k
  · simp only [hE]
    rcases hF : (if fwd = true
        then firstFailure (batchOutcomes (effThreads numThreads cpuCount) work)
        else Option.none) with _ | k2
    · simp only [hF]
      exact ⟨trivial, trivial⟩
    · simp only [hF]
      exact ⟨trivial, trivial⟩
  · simp only [hE]
    exact ⟨trivial, trivial⟩

theorem runCore_forward_spec (numThreads : Int) (cpuCount : Nat)
    (work : Nat → Nat → Option ExKind) (sm : Bool) (kb0 : KBState) (k : ExKind)
    (hKI : ∀ o ∈ batchOutcomes (effThreads numThreads cpuCount) work,
        o ≠ some ExKind.keyboardInterrupt)
    (hfirst : firstFailure (batchOutcomes (effThreads numThreads cpuCount) work) = some k)
    (hk : k ≠ ExKind.keyboardInterrupt) (hmc : kb0.multipleCtrlC = false) :
    ((runCore numThreads cpuCount work true false sm kb0).1.threadException = true)
    ∧ ((runCore numThreads cpuCount work true false sm kb0).2.1 = Option.none)
    ∧ (LogEv.outerThreadError k
        ∈ (runCore numThreads cpuCount work true false sm kb0).1.log) := by
  unfold runCore
  rw [if_neg (by simp)]
  have hE : (collectLogs (decide (1 < effThreads numThreads cpuCount))
      (batchOutcomes (effThreads numThreads cpuCount) work)).2 = Option.none :=
    collect_no_KI _ _ hKI
  simp only [hE, if_true, hfirst]
  rw [handleOuter_nonKI _ hk (by simp [addLog, apply_ite KBState.multipleCtrlC, hmc])]
  refine ⟨rfl, rfl, ?_⟩
  simp

/-- C1, corrected.  With propagateFirstError (forwardException) set and a
batch whose first recorded failure (worker-index order) is a
non-cancellation exception, runThreadsWithPool re-raises that failure
internally but its own outer handler catches it: the error is logged,
kb.threadException is set, and run returns normally to its caller with
no exception; the cleanup callback still executes exactly once before
run returns.  The claim as stated (re-raised to the caller) is refuted
by C1_counterexample. -/
theorem C1_forward_swallowed (numThreads : Int) (cpuCount : Nat)
    (work : Nat → Nat → Option ExKind) (cl : Option (Option ExKind)) (sm : Bool)
    (kb0 : KBState) (k : ExKind)
    (hmc : kb0.multipleCtrlC = false) (hk : k ≠ ExKind.keyboardInterrupt)
    (hKI : ∀ o ∈ batchOutcomes (effThreads numThreads cpuCount) work,
        o ≠ some ExKind.keyboardInterrupt)
    (hfirst : firstFailure (batchOutcomes (effThreads numThreads cpuCount) work) = some k)
    (hcl : cl ≠ some (some ExKind.keyboardInterrupt)) :
    ((runThreadsWithPool numThreads cpuCount work cl true false sm kb0).raised = Option.none)
    ∧ ((runThreadsWithPool numThreads cpuCount work cl true false sm kb0).kb.threadException
        = true)
    ∧ (LogEv.outerThreadError k
        ∈ (runThreadsWithPool numThreads cpuCount work cl true false sm kb0).kb.log)
    ∧ ((runThreadsWithPool numThreads cpuCount work cl true false sm kb0).kb.cleanupRuns
        = kb0.cleanupRuns + (if cl.isSome then 1 else 0)) := by
  have hcore := runCore_forward_spec numThreads cpuCount work sm kb0 k hKI hfirst hk hmc
  have hclean := runCleanup_spec cl (runCore numThreads cpuCount work true false sm kb0).1
      (runCore numThreads cpuCount work true false sm kb0).2.1
  refine ⟨?_, ?_, ?_, ?_⟩
  · show (runCleanup cl (runCore numThreads cpuCount work true false sm kb0).1
        (runCore numThreads cpuCount work true false sm kb0).2.1).2 = Option.none
    rw [hclean.2.2.2.2.2.1 hcl]
    exact hcore.2.1
  · show (runCleanup cl (runCore numThreads cpuCount work true false sm kb0).1
        (runCore numThreads cpuCount work true false sm kb0).2.1).1.threadException = true
    rw [hclean.2.1]
    exact hcore.1
  · exact hclean.2.2.2.2.1 _ hcore.2.2
  · show (runCleanup cl (runCore numThreads cpuCount work true false sm kb0).1
        (runCore numThreads cpuCount work true false sm kb0).2.1).1.cleanupRuns
      = kb0.cleanupRuns + (if cl.isSome then 1 else 0)
    rw [hclean.2.2.2.1, runCore_cleanupRuns]

/-- C6, confirmed.  After runThreadsWithPool returns, the process-wide
multiThreadMode flag is false; the cleanup callback runs exactly once
whenever provided, whatever the outcomes; an all-success batch reports
one success outcome per submitted unit; and a non-interrupt failure
raised by the cleanup callback itself is caught and logged and does
not change the run's primary outcome. -/
theorem C6_run_contract (numThreads : Int) (cpuCount : Nat)
    (work : Nat → Nat → Option ExKind) (cl : Option (Option ExKind)) (fwd tc sm : Bool)
    (kb0 : KBState) :
    ((runThreadsWithPool numThreads cpuCount work cl fwd tc sm kb0).kb.multiThreadMode = false)
    ∧ ((runThreadsWithPool numThreads cpuCount work cl fwd tc sm kb0).kb.cleanupRuns
        = kb0.cleanupRuns + (if cl.isSome then 1 else 0))
    ∧ (tc = false → (∀ i m, work i m = Option.none) →
        (runThreadsWithPool numThreads cpuCount work cl fwd tc sm kb0).outcomes
          = List.replicate
              (runThreadsWithPool numThreads cpuCount work cl fwd tc sm kb0).submitted
              Option.none)
    ∧ (∀ k2, k2 ≠ ExKind.keyboardInterrupt →
        (runThreadsWithPool numThreads cpuCount work (some (some k2)) fwd tc sm kb0).raised
          = (runThreadsWithPool numThreads cpuCount work (some Option.none) fwd tc sm kb0).raised
        ∧ LogEv.cleanupError k2
            ∈ (runThreadsWithPool numThreads cpuCount work (some (some k2))
                fwd tc sm kb0).kb.log) := by
  refine ⟨?_, ?_, ?_, ?_⟩
  · exact (runCleanup_spec cl _ _).1
  · show (runCleanup cl (runCore numThreads cpuCount work fwd tc sm kb0).1
        (runCore numThreads cpuCount work fwd tc sm kb0).2.1).1.cleanupRuns
      = kb0.cleanupRuns + (if cl.isSome then 1 else 0)
    rw [(runCleanup_spec _ _ _).2.2.2.1, runCore_cleanupRuns]
  · intro htc hwork
    subst htc
    have hso := runCore_sub_out numThreads cpuCount work fwd sm kb0
    show (runCore numThreads cpuCount work fwd false sm kb0).2.2.2
        = List.replicate (runCore numThreads cpuCount work fwd false sm kb0).2.2.1 Option.none
    rw [hso.1, hso.2]
    simp [batchOutcomes, hwork]
  · intro k2 hk2
    constructor
    · show (runCleanup (some (some k2)) (runCore numThreads cpuCount work fwd tc sm kb0).1
          (runCore numThreads cpuCount work fwd tc sm kb0).2.1).2
        = (runCleanup (some Option.none) (runCore numThreads cpuCount work fwd tc sm kb0).1
            (runCore numThreads cpuCount work fwd tc sm kb0).2.1).2
      rw [(runCleanup_spec _ _ _).2.2.2.2.2.1 (by simp [hk2]),
        (runCleanup_spec _ _ _).2.2.2.2.2.1 (by simp)]
    · exact (runCleanup_spec _ _ _).2.2.2.2.2.2 k2 rfl hk2

/-- C8, confirmed.  A requested worker count of zero or less is
clamped to 1, the effective count never exceeds
min(cpu_count * 4, 32), and exactly the clamped number of units is
submitted (one outcome per unit). -/
theorem C8_worker_clamp (numThreads : Int) (cpuCount : Nat)
    (work : Nat → Nat → Option ExKind) (cl : Option (Option ExKind)) (fwd sm : Bool)
    (kb0 : KBState) :
    ((runThreadsWithPool numThreads cpuCount work cl fwd false sm kb0).submitted
        = min (if numThreads ≤ 0 then 1 else numThreads.toNat) (min (cpuCount * 4) 32))
    ∧ ((runThreadsWithPool numThreads cpuCount work cl fwd false sm kb0).submitted
        ≤ min (cpuCount * 4) 32)
    ∧ (1 ≤ cpuCount → numThreads ≤ 0 →
        (runThreadsWithPool numThreads cpuCount work cl fwd false sm kb0).submitted = 1)
    ∧ ((runThreadsWithPool numThreads cpuCount work cl fwd false sm kb0).outcomes.length
        = (runThreadsWithPool numThreads cpuCount work cl fwd false sm kb0).submitted) := by
  have hso := runCore_sub_out numThreads cpuCount work fwd sm kb0
  have hsub : (runThreadsWithPool numThreads cpuCount work cl fwd false sm kb0).submitted
      = effThreads numThreads cpuCount := hso.1
  have hout : (runThreadsWithPool numThreads cpuCount work cl fwd false sm kb0).outcomes
      = batchOutcomes (effThreads numThreads cpuCount) work := hso.2
  refine ⟨?_, ?_, ?_, ?_⟩
  · rw [hsub]
    rfl
  · rw [hsub]
    exact Nat.min_le_right _ _
  · intro hcpu hneg
    rw [hsub]
    unfold effThreads
    rw [if_pos hneg]
    omega
  · rw [hout, hsub]
    simp [batchOutcomes]

/-- C1 counterexample: a five-unit batch whose unit 2 raises a generic
exception, run with forwardException = true, returns normally
(raised = Option.none) to the caller instead of re-raising, with
cleanup executed and kb.threadException set. -/
theorem C1_counterexample :
    ((runThreadsWithPool 5 8 workC1 (some Option.none) true false false kbInit).raised
        = Option.none)
    ∧ ((runThreadsWithPool 5 8 workC1 (some Option.none) true false false kbInit).kb.cleanupRuns
        = 1)
    ∧ ((runThreadsWithPool 5 8 workC1 (some Option.none) true false false
          kbInit).kb.threadException = true) := by
  decide

/-- C1 witness: concrete instance of C1_forward_swallowed. -/
theorem C1_witness :
    ((runThreadsWithPool 4 1 workC1w (some Option.none) true false false kbInit).raised
        = Option.none)
    ∧ ((runThreadsWithPool 4 1 workC1w (some Option.none) true false false
          kbInit).kb.threadException = true)
    ∧ (LogEv.outerThreadError ExKind.connection
        ∈ (runThreadsWithPool 4 1 workC1w (some Option.none) true false false kbInit).kb.log)
    ∧ ((runThreadsWithPool 4 1 workC1w (some Option.none) true false false
          kbInit).kb.cleanupRuns = 1) := by
  have h := C1_forward_swallowed 4 1 workC1w (some Option.none) false kbInit
    ExKind.connection rfl (by decide) (by decide) (by decide) (by decide)
  exact ⟨h.1, h.2.1, h.2.2.1, by simpa [kbInit] using h.2.2.2⟩

/-- C6 witness: a three-unit all-success batch with cleanup. -/
theorem C6_witness :
    ((runThreadsWithPool 3 2 (fun _ _ => Option.none) (some Option.none) false false false
        kbInit).kb.multiThreadMode = false)
    ∧ ((runThreadsWithPool 3 2 (fun _ _ => Option.none) (some Option.none) false false false
          kbInit).kb.cleanupRuns = 1)
    ∧ ((runThreadsWithPool 3 2 (fun _ _ => Option.none) (some Option.none) false false false
          kbInit).outcomes
        = List.replicate
            (runThreadsWithPool 3 2 (fun _ _ => Option.none) (some Option.none) false false false
              kbInit).submitted Option.none) := by
  have h := C6_run_contract 3 2 (fun _ _ => Option.none) (some Option.none) false false false
    kbInit
  exact ⟨h.1, by simpa [kbInit] using h.2.1, h.2.2.1 rfl (fun i m => rfl)⟩

/-- C8 witness: minus three workers clamp to 1; one hundred requested
workers clamp to 8 on a two-core host. -/
theorem C8_witness :
    ((runThreadsWithPool (-3) 2 (fun _ _ => Option.none) Option.none false false false
        kbInit).submitted = 1)
    ∧ ((runThreadsWithPool 100 2 (fun _ _ => Option.none) Option.none false false false
          kbInit).submitted = 8) := by
  have h1 := C8_worker_clamp (-3) 2 (fun _ _ => Option.none) Option.none false false kbInit
  have h2 := C8_worker_clamp 100 2 (fun _ _ => Option.none) Option.none false false kbInit
  refine ⟨h1.2.2.1 (by decide) (by decide), ?_⟩
  rw [h2.1]
  decide
